import Mathlib

/-!
Shallow embedding of the battery-management-system simulation
(`bms_simulation.py`): a `BatteryCell` with state-of-charge (SOC),
state-of-health (SOH), temperature and derived voltage, and a
`BatteryPack` holding a list of cells plus a cycle counter.
Real-valued cell state is modelled with `ℚ` (exact arithmetic standing
in for the Python floats); the Python numeric literals 0.05, 0.01
become 5/100 and 1/100.
-/

namespace BMS

/-- One battery cell, mirroring `BatteryCell.__init__`'s fields. -/
structure BatteryCell where
  capacity_ah : ℚ
  voltage_nominal : ℚ
  soc : ℚ
  soh : ℚ
  temp : ℚ
  voltage : ℚ
  thermal_resistance : ℚ
  thermal_capacity : ℚ
  ambient_temp : ℚ
deriving Repr, DecidableEq

/-- `BatteryCell.__init__(capacity_ah, voltage_nominal, initial_soc,
initial_soh, initial_temp)`: voltage starts at `voltage_nominal`; the
thermal constants are fixed (0.1 °C/W, 500 J/°C, ambient 25 °C). -/
def BatteryCell.init (capacity_ah voltage_nominal initial_soc initial_soh
    initial_temp : ℚ) : BatteryCell :=
  { capacity_ah := capacity_ah
    voltage_nominal := voltage_nominal
    soc := initial_soc
    soh := initial_soh
    temp := initial_temp
    voltage := voltage_nominal
    thermal_resistance := 1/10
    thermal_capacity := 500
    ambient_temp := 25 }

/-- `update_voltage`: `voltage = voltage_nominal * (soc/100) * (soh/100)`. -/
def BatteryCell.update_voltage (c : BatteryCell) : BatteryCell :=
  { c with voltage := c.voltage_nominal * (c.soc / 100) * (c.soh / 100) }

/-- `cool_down`: `temp -= (temp - ambient_temp) * 0.01`. -/
def BatteryCell.cool_down (c : BatteryCell) : BatteryCell :=
  { c with temp := c.temp - (c.temp - c.ambient_temp) * (1/100) }

/-- `generate_heat(current, dt)`: Joule heating `current² * 0.05 * dt`
spread over the thermal capacity, then cooling. -/
def BatteryCell.generate_heat (c : BatteryCell) (current dt : ℚ) : BatteryCell :=
  let resistance : ℚ := 5/100
  let heat_generated := current ^ 2 * resistance * dt
  let delta_temp := heat_generated / c.thermal_capacity
  BatteryCell.cool_down { c with temp := c.temp + delta_temp }

/-- `discharge(current, dt)`: drop SOC by `(current*dt/3600)/capacity*100`,
clamped below at 0, then heat and voltage updates. -/
def BatteryCell.discharge (c : BatteryCell) (current dt : ℚ) : BatteryCell :=
  let delta_ah := current * dt / 3600
  let soc_drop := delta_ah / c.capacity_ah * 100
  BatteryCell.update_voltage
    (BatteryCell.generate_heat { c with soc := max (c.soc - soc_drop) 0 } current dt)

/-- `charge(current, dt)`: raise SOC by `(current*dt/3600)/capacity*100`,
clamped above at 100, then heat and voltage updates. -/
def BatteryCell.charge (c : BatteryCell) (current dt : ℚ) : BatteryCell :=
  let delta_ah := current * dt / 3600
  let soc_gain := delta_ah / c.capacity_ah * 100
  BatteryCell.update_voltage
    (BatteryCell.generate_heat { c with soc := min (c.soc + soc_gain) 100 } current dt)

/-- `degrade_health(cycles)`: `soh -= 0.01 * cycles`, floored at 60. -/
def BatteryCell.degrade_health (c : BatteryCell) (cycles : ℕ) : BatteryCell :=
  let soh1 := c.soh - (1/100) * (cycles : ℚ)
  { c with soh := if soh1 < 60 then 60 else soh1 }

/-- The pack: an ordered list of cells plus the cycle counter. -/
structure BatteryPack where
  cells : List BatteryCell
  cycles : ℕ
deriving Repr, DecidableEq

/-- `BatteryPack.__init__(num_cells, cell_capacity, cell_voltage)`:
`num_cells` identical cells at the default initial state. -/
def BatteryPack.init (num_cells : ℕ) (cell_capacity cell_voltage : ℚ) :
    BatteryPack :=
  { cells := List.replicate num_cells
      (BatteryCell.init cell_capacity cell_voltage 100 100 25)
    cycles := 0 }

/-- `simulate_step(current, dt)`: discharge every cell when `current > 0`,
charge every cell by `-current` when `current < 0`, leave cells alone when
`current = 0`; then, if every cell's SOC is exactly 100 or every cell's SOC
is exactly 0, increment `cycles` and degrade every cell by the new count. -/
def BatteryPack.simulate_step (p : BatteryPack) (current dt : ℚ) : BatteryPack :=
  let cells1 := p.cells.map (fun cell =>
    if current > 0 then cell.discharge current dt
    else if current < 0 then cell.charge (-current) dt
    else cell)
  if (∀ cell ∈ cells1, cell.soc = 100) ∨ (∀ cell ∈ cells1, cell.soc = 0) then
    { cells := cells1.map (fun cell => cell.degrade_health (p.cycles + 1))
      cycles := p.cycles + 1 }
  else
    { cells := cells1, cycles := p.cycles }

/-- Iterated `simulate_step` over a list of `(current, dt)` commands. -/
def BatteryPack.runSteps (p : BatteryPack) (steps : List (ℚ × ℚ)) : BatteryPack :=
  steps.foldl (fun q s => q.simulate_step s.1 s.2) p

/-! Projection lemmas: which fields each cell operation leaves unchanged,
and closed forms for the fields it changes. -/

theorem soh_discharge (c : BatteryCell) (current dt : ℚ) :
    (c.discharge current dt).soh = c.soh := rfl

theorem soh_charge (c : BatteryCell) (current dt : ℚ) :
    (c.charge current dt).soh = c.soh := rfl

theorem capacity_discharge (c : BatteryCell) (current dt : ℚ) :
    (c.discharge current dt).capacity_ah = c.capacity_ah := rfl

theorem capacity_charge (c : BatteryCell) (current dt : ℚ) :
    (c.charge current dt).capacity_ah = c.capacity_ah := rfl

theorem capacity_degrade (c : BatteryCell) (k : ℕ) :
    (c.degrade_health k).capacity_ah = c.capacity_ah := rfl

theorem soc_discharge (c : BatteryCell) (current dt : ℚ) :
    (c.discharge current dt).soc
      = max (c.soc - current * dt / 3600 / c.capacity_ah * 100) 0 := rfl

theorem soc_charge (c : BatteryCell) (current dt : ℚ) :
    (c.charge current dt).soc
      = min (c.soc + current * dt / 3600 / c.capacity_ah * 100) 100 := rfl

theorem soc_degrade (c : BatteryCell) (k : ℕ) :
    (c.degrade_health k).soc = c.soc := rfl

theorem soh_degrade (c : BatteryCell) (k : ℕ) :
    (c.degrade_health k).soh
      = if c.soh - (1/100) * (k : ℚ) < 60 then 60 else c.soh - (1/100) * (k : ℚ) :=
  rfl

/-- After `degrade_health` the SOH is at least 60, unconditionally. -/
theorem soh_degrade_lb (c : BatteryCell) (k : ℕ) :
    60 ≤ (c.degrade_health k).soh := by
  rw [soh_degrade]
  split <;> linarith

/-- `degrade_health` never raises an SOH that was at least 60. -/
theorem soh_degrade_le (c : BatteryCell) (k : ℕ) (h : 60 ≤ c.soh) :
    (c.degrade_health k).soh ≤ c.soh := by
  have hk : (0 : ℚ) ≤ (k : ℚ) := Nat.cast_nonneg k
  rw [soh_degrade]
  split <;> nlinarith

/-- `degrade_health` keeps SOH at or below 100 when it started there. -/
theorem soh_degrade_ub (c : BatteryCell) (k : ℕ) (h : c.soh ≤ 100) :
    (c.degrade_health k).soh ≤ 100 := by
  have hk : (0 : ℚ) ≤ (k : ℚ) := Nat.cast_nonneg k
  rw [soh_degrade]
  split <;> nlinarith

/-- Rounding an `if _ < 60 then 60 else _` clamp into a `max`. -/
theorem if_lt_sixty_eq_max (x : ℚ) : (if x < 60 then 60 else x) = max x 60 := by
  rcases lt_or_le x 60 with h | h
  · rw [if_pos h, max_eq_right h.le]
  · rw [if_neg (not_lt.mpr h), max_eq_left h]

/-- `degrade_health` written with an explicit `max` clamp. -/
theorem degrade_health_eq_max (c : BatteryCell) (k : ℕ) :
    c.degrade_health k = { c with soh := max (c.soh - (1/100) * (k : ℚ)) 60 } := by
  simp only [BatteryCell.degrade_health, if_lt_sixty_eq_max]

/-- The per-cell update applied inside `simulate_step` never touches SOH. -/
theorem soh_stepCell (c : BatteryCell) (current dt : ℚ) :
    (if current > 0 then c.discharge current dt
     else if current < 0 then c.charge (-current) dt else c).soh = c.soh := by
  split_ifs
  · exact soh_discharge ..
  · exact soh_charge ..
  · rfl

/-- Claim C1: the spec requires that `cycles` increment only once per genuine
saturation crossing. The code instead increments on every step during which
all cells remain saturated: a fresh 4-cell pack (all SOC 100, zero cycles,
no crossing ever having occurred) stepped once with charging current `-1`
already reaches `cycles = 1`, and a second identical step reaches
`cycles = 2`. -/
theorem C1_cycles_increment_every_saturated_step :
    ((BatteryPack.init 4 (5/2) (37/10)).simulate_step (-1) 10).cycles = 1 ∧
    (((BatteryPack.init 4 (5/2) (37/10)).simulate_step (-1) 10).simulate_step
        (-1) 10).cycles = 2 := by
  norm_num [BatteryPack.init, BatteryPack.simulate_step, BatteryCell.init,
    BatteryCell.charge, BatteryCell.discharge, BatteryCell.generate_heat,
    BatteryCell.cool_down, BatteryCell.update_voltage, BatteryCell.degrade_health,
    List.replicate, max_def, min_def]

/-- Claim C2: the spec requires `voltage = voltage_nominal * (soc/100) * (soh/100)`
after every update, including health degradation. The code never recomputes
voltage after `degrade_health`: after one idle step on a fresh 4-cell pack each
cell has `soh = 99.99` yet `voltage` is still the stale `3.7`, while the formula
demands `3.69963`. -/
theorem C2_voltage_stale_after_health_degradation :
    ((BatteryPack.init 4 (5/2) (37/10)).simulate_step 0 10).cells.map
        (fun c => c.soh) = List.replicate 4 (9999/100) ∧
    ((BatteryPack.init 4 (5/2) (37/10)).simulate_step 0 10).cells.map
        (fun c => c.voltage) = List.replicate 4 (37/10) ∧
    ((BatteryPack.init 4 (5/2) (37/10)).simulate_step 0 10).cells.map
        (fun c => c.voltage_nominal * (c.soc / 100) * (c.soh / 100))
      = List.replicate 4 (369963/100000) ∧
    (37/10 : ℚ) ≠ 369963/100000 := by
  norm_num [BatteryPack.init, BatteryPack.simulate_step, BatteryCell.init,
    BatteryCell.degrade_health, List.replicate]

/-- Claim C4: for positive capacity, current and dt, `discharge` sets
`soc = max (soc - (current*dt/3600)/capacity_ah*100) 0`, with no error channel
on depletion (the operation is total). -/
theorem C4_discharge_soc_formula (c : BatteryCell) (current dt : ℚ)
    (hcap : 0 < c.capacity_ah) (hcur : 0 < current) (hdt : 0 < dt) :
    (c.discharge current dt).soc
      = max (c.soc - current * dt / 3600 / c.capacity_ah * 100) 0 :=
  soc_discharge c current dt

/-- Concrete instance of claim C4: `capacity_ah = 2.5`, `soc = 100`,
`current = 1`, `dt = 10` gives `soc = 899/9 ≈ 99.8889` afterwards. -/
theorem C4_discharge_soc_formula_witness :
    ((BatteryCell.init (5/2) (37/10) 100 100 25).discharge 1 10).soc = 899/9 := by
  rw [C4_discharge_soc_formula (BatteryCell.init (5/2) (37/10) 100 100 25) 1 10
    (by norm_num [BatteryCell.init]) (by norm_num) (by norm_num)]
  norm_num [BatteryCell.init, max_def]

/-- Claim C5, counterexample: nothing is rejected at the boundary. A
zero-length pack is constructed without error; stepping it is silently
processed (and even increments `cycles`, the all-cells check being vacuous);
a negative `dt` is silently processed and pushes SOC above 100. -/
theorem C5_no_rejection_counterexample :
    (BatteryPack.init 0 (5/2) (37/10)).cells = [] ∧
    ((BatteryPack.init 0 (5/2) (37/10)).simulate_step 1 10).cycles = 1 ∧
    ((BatteryPack.init 1 (5/2) (37/10)).simulate_step 1 (-10)).cells.map
        (fun c => c.soc) = [901/9] := by
  norm_num [BatteryPack.init, BatteryPack.simulate_step, BatteryCell.init,
    BatteryCell.discharge, BatteryCell.generate_heat, BatteryCell.cool_down,
    BatteryCell.update_voltage, BatteryCell.degrade_health,
    List.replicate, max_def, min_def]

/-- Claim C5, amended: construction and stepping are total and validate
nothing — any cell count (including zero) and any capacity, voltage, current
and dt (including non-positive ones) are accepted and silently processed;
a zero-cell pack's step vacuously increments `cycles`. -/
theorem C5_construction_and_step_total (num_cells : ℕ)
    (cap v current dt : ℚ) :
    (BatteryPack.init num_cells cap v).cells.length = num_cells ∧
    (BatteryPack.init num_cells cap v).cycles = 0 ∧
    ((BatteryPack.init 0 cap v).simulate_step current dt).cycles = 1 := by
  refine ⟨List.length_replicate _ _, rfl, ?_⟩
  simp [BatteryPack.init, BatteryPack.simulate_step]

/-- Claim C7: `generate_heat` adds `current² * 0.05 * dt / thermal_capacity`
to the temperature (direction-independent), then applies `cool_down`, which
subtracts `(temp - ambient_temp) * 0.01` exactly once, not scaled by `dt`;
constructed cells fix `thermal_capacity = 500` and `ambient_temp = 25`. -/
theorem C7_heat_then_cooling (c : BatteryCell) (current dt cap v : ℚ) :
    (c.generate_heat current dt).temp
      = (c.temp + current ^ 2 * (5/100) * dt / c.thermal_capacity)
        - ((c.temp + current ^ 2 * (5/100) * dt / c.thermal_capacity)
            - c.ambient_temp) * (1/100) ∧
    (c.generate_heat (-current) dt).temp = (c.generate_heat current dt).temp ∧
    c.cool_down.temp = c.temp - (c.temp - c.ambient_temp) * (1/100) ∧
    (BatteryCell.init cap v 100 100 25).thermal_capacity = 500 ∧
    (BatteryCell.init cap v 100 100 25).ambient_temp = 25 := by
  refine ⟨rfl, ?_, rfl, rfl, rfl⟩
  simp [BatteryCell.generate_heat, BatteryCell.cool_down, neg_sq]

/-- Claim C6: when neither clamp fires (the charge stays at or below 100 and
the start SOC is non-negative), charging by `(current, dt)` and then
discharging by the same `(current, dt)` restores `soc` exactly. -/
theorem C6_charge_then_discharge_roundtrip (c : BatteryCell) (current dt : ℚ)
    (hcur : 0 < current) (hdt : 0 < dt)
    (hnoclamp : c.soc + current * dt / 3600 / c.capacity_ah * 100 ≤ 100)
    (hsoc : 0 ≤ c.soc) :
    ((c.charge current dt).discharge current dt).soc = c.soc := by
  rw [soc_discharge, capacity_charge, soc_charge, min_eq_left hnoclamp]
  have h : c.soc + current * dt / 3600 / c.capacity_ah * 100
      - current * dt / 3600 / c.capacity_ah * 100 = c.soc := by ring
  rw [h, max_eq_left hsoc]

/-- Concrete instance of claim C6: a cell at SOC 50 charged then discharged
at `current = 1`, `dt = 10` returns exactly to SOC 50. -/
theorem C6_charge_then_discharge_roundtrip_witness :
    (((BatteryCell.init (5/2) (37/10) 50 100 25).charge 1 10).discharge
        1 10).soc = (BatteryCell.init (5/2) (37/10) 50 100 25).soc :=
  C6_charge_then_discharge_roundtrip (BatteryCell.init (5/2) (37/10) 50 100 25)
    1 10 (by norm_num) (by norm_num) (by norm_num [BatteryCell.init])
    (by norm_num [BatteryCell.init])

/-- The per-cell update of `simulate_step` keeps positive capacity, keeps SOC
inside `[0, 100]` (given `0 < dt` and a positive capacity), and fixes SOH. -/
theorem stepCell_bounds (c : BatteryCell) (current dt : ℚ) (hdt : 0 < dt)
    (hcap : 0 < c.capacity_ah) (h0 : 0 ≤ c.soc) (h1 : c.soc ≤ 100) :
    0 < (if current > 0 then c.discharge current dt
         else if current < 0 then c.charge (-current) dt else c).capacity_ah ∧
    0 ≤ (if current > 0 then c.discharge current dt
         else if current < 0 then c.charge (-current) dt else c).soc ∧
    (if current > 0 then c.discharge current dt
     else if current < 0 then c.charge (-current) dt else c).soc ≤ 100 := by
  split_ifs with hpos hneg
  · have hdrop : 0 ≤ current * dt / 3600 / c.capacity_ah * 100 :=
      mul_nonneg (div_nonneg (div_nonneg (mul_nonneg hpos.le hdt.le)
        (by norm_num)) hcap.le) (by norm_num)
    refine ⟨hcap, ?_, ?_⟩
    · rw [soc_discharge]; exact le_max_right _ _
    · rw [soc_discharge]
      exact max_le (by linarith) (by norm_num)
  · have hgain : 0 ≤ -current * dt / 3600 / c.capacity_ah * 100 :=
      mul_nonneg (div_nonneg (div_nonneg
        (mul_nonneg (by linarith) hdt.le) (by norm_num)) hcap.le) (by norm_num)
    refine ⟨hcap, ?_, ?_⟩
    · rw [soc_charge]
      exact le_min (by linarith) (by norm_num)
    · rw [soc_charge]; exact min_le_right _ _
  · exact ⟨hcap, h0, h1⟩

/-- Every cell of the pack after one `simulate_step` is the per-cell update of
some cell of the original pack, possibly followed by `degrade_health` with the
incremented cycle count. -/
theorem mem_simulate_step_cells (p : BatteryPack) (current dt : ℚ)
    (c : BatteryCell) (hc : c ∈ (p.simulate_step current dt).cells) :
    ∃ c0 ∈ p.cells,
      c = (if current > 0 then c0.discharge current dt
           else if current < 0 then c0.charge (-current) dt else c0) ∨
      c = (if current > 0 then c0.discharge current dt
           else if current < 0 then c0.charge (-current) dt
           else c0).degrade_health (p.cycles + 1) := by
  set L := p.cells.map (fun cell =>
    if current > 0 then cell.discharge current dt
    else if current < 0 then cell.charge (-current) dt else cell) with hL
  have hstep : p.simulate_step current dt =
      if (∀ cell ∈ L, cell.soc = 100) ∨ (∀ cell ∈ L, cell.soc = 0)
      then { cells := L.map (fun cell => cell.degrade_health (p.cycles + 1))
             cycles := p.cycles + 1 }
      else { cells := L, cycles := p.cycles } := rfl
  rw [hstep] at hc
  by_cases hcond : (∀ cell ∈ L, cell.soc = 100) ∨ (∀ cell ∈ L, cell.soc = 0)
  · rw [if_pos hcond] at hc
    obtain ⟨c1, hc1, rfl⟩ := List.mem_map.mp hc
    rw [hL] at hc1
    obtain ⟨c0, hc0, rfl⟩ := List.mem_map.mp hc1
    exact ⟨c0, hc0, Or.inr rfl⟩
  · rw [if_neg hcond] at hc
    rw [hL] at hc
    obtain ⟨c0, hc0, rfl⟩ := List.mem_map.mp hc
    exact ⟨c0, hc0, Or.inl rfl⟩

/-- One `simulate_step` with positive `dt` preserves the cell bounds
(positive capacity, SOC in `[0, 100]`, SOH in `[60, 100]`). -/
theorem step_preserves_bounds (p : BatteryPack) (current dt : ℚ) (hdt : 0 < dt)
    (hp : ∀ c ∈ p.cells, 0 < c.capacity_ah ∧ 0 ≤ c.soc ∧ c.soc ≤ 100 ∧
      60 ≤ c.soh ∧ c.soh ≤ 100) :
    ∀ c ∈ (p.simulate_step current dt).cells,
      0 < c.capacity_ah ∧ 0 ≤ c.soc ∧ c.soc ≤ 100 ∧
      60 ≤ c.soh ∧ c.soh ≤ 100 := by
  intro c hc
  obtain ⟨c0, hc0, hcase⟩ := mem_simulate_step_cells p current dt c hc
  obtain ⟨hcap, h0, h1, h2, h3⟩ := hp c0 hc0
  obtain ⟨hgcap, hg0, hg1⟩ := stepCell_bounds c0 current dt hdt hcap h0 h1
  have hgsoh := soh_stepCell c0 current dt
  rcases hcase with rfl | rfl
  · exact ⟨hgcap, hg0, hg1, hgsoh ▸ h2, hgsoh ▸ h3⟩
  · refine ⟨?_, ?_, ?_, ?_, ?_⟩
    · rw [capacity_degrade]; exact hgcap
    · rw [soc_degrade]; exact hg0
    · rw [soc_degrade]; exact hg1
    · exact soh_degrade_lb _ _
    · exact soh_degrade_ub _ _ (by rw [hgsoh]; exact h3)

/-- Any run of `simulate_step`s with positive `dt`s preserves the cell
bounds. -/
theorem runSteps_bounds (steps : List (ℚ × ℚ)) : ∀ p : BatteryPack,
    (∀ c ∈ p.cells, 0 < c.capacity_ah ∧ 0 ≤ c.soc ∧ c.soc ≤ 100 ∧
      60 ≤ c.soh ∧ c.soh ≤ 100) →
    (∀ s ∈ steps, 0 < s.2) →
    ∀ c ∈ (p.runSteps steps).cells,
      0 < c.capacity_ah ∧ 0 ≤ c.soc ∧ c.soc ≤ 100 ∧
      60 ≤ c.soh ∧ c.soh ≤ 100 := by
  induction steps with
  | nil => intro p hp _; exact hp
  | cons s rest ih =>
    intro p hp hs
    exact ih (p.simulate_step s.1 s.2)
      (step_preserves_bounds p s.1 s.2 (hs s (List.mem_cons_self _ _)) hp)
      (fun t ht => hs t (List.mem_cons_of_mem _ ht))

/-- Claim C3: if every cell of a pack starts with positive capacity,
`0 ≤ soc ≤ 100` and `60 ≤ soh ≤ 100`, then after any sequence of
`simulate_step`s with arbitrary currents and positive `dt`s, every cell still
satisfies `0 ≤ soc ≤ 100` and `60 ≤ soh ≤ 100`. -/
theorem C3_soc_soh_bounds_invariant (p : BatteryPack)
    (hp : ∀ c ∈ p.cells, 0 < c.capacity_ah ∧ 0 ≤ c.soc ∧ c.soc ≤ 100 ∧
      60 ≤ c.soh ∧ c.soh ≤ 100)
    (steps : List (ℚ × ℚ)) (hsteps : ∀ s ∈ steps, 0 < s.2) :
    ∀ c ∈ (p.runSteps steps).cells,
      0 ≤ c.soc ∧ c.soc ≤ 100 ∧ 60 ≤ c.soh ∧ c.soh ≤ 100 := by
  intro c hc
  obtain ⟨_, h⟩ := runSteps_bounds steps p hp hsteps c hc
  exact h

/-- Concrete instance of claim C3: a fresh one-cell pack stepped once by
`(current, dt) = (1, 10)` still satisfies all the bounds. -/
theorem C3_soc_soh_bounds_invariant_witness :
    0 ≤ (899/9 : ℚ) ∧ (899/9 : ℚ) ≤ 100 ∧
    60 ≤ (100 : ℚ) ∧ (100 : ℚ) ≤ 100 := by
  have hmem : (⟨5/2, 37/10, 899/9, 100, 2500099/100000, 33263/9000,
      1/10, 500, 25⟩ : BatteryCell)
      ∈ ((BatteryPack.init 1 (5/2) (37/10)).runSteps [(1, 10)]).cells := by
    norm_num [BatteryPack.runSteps, BatteryPack.init, BatteryPack.simulate_step,
      BatteryCell.init, BatteryCell.discharge, BatteryCell.generate_heat,
      BatteryCell.cool_down, BatteryCell.update_voltage, List.replicate,
      max_def, min_def]
  exact C3_soc_soh_bounds_invariant (BatteryPack.init 1 (5/2) (37/10))
    (by norm_num [BatteryPack.init, BatteryCell.init, List.replicate])
    [(1, 10)] (by norm_num) _ hmem

/-- Unfolding of `simulate_step` (the `let` zeta-reduced). -/
theorem simulate_step_def (p : BatteryPack) (current dt : ℚ) :
    p.simulate_step current dt =
      if (∀ cell ∈ p.cells.map (fun cell =>
            if current > 0 then cell.discharge current dt
            else if current < 0 then cell.charge (-current) dt else cell),
          cell.soc = 100) ∨
         (∀ cell ∈ p.cells.map (fun cell =>
            if current > 0 then cell.discharge current dt
            else if current < 0 then cell.charge (-current) dt else cell),
          cell.soc = 0)
      then BatteryPack.mk ((p.cells.map (fun cell =>
            if current > 0 then cell.discharge current dt
            else if current < 0 then cell.charge (-current) dt else cell)).map
              (fun cell => cell.degrade_health (p.cycles + 1))) (p.cycles + 1)
      else BatteryPack.mk (p.cells.map (fun cell =>
            if current > 0 then cell.discharge current dt
            else if current < 0 then cell.charge (-current) dt else cell))
        p.cycles := rfl

/-- A pack of `n` copies of one cell steps to a pack of `n` copies of one
(possibly degraded) cell; SOH does not increase and stays at or above 60. -/
theorem step_replicate_soh (n k : ℕ) (c : BatteryCell) (current dt : ℚ)
    (hsoh : 60 ≤ c.soh) :
    ∃ c' k', (BatteryPack.mk (List.replicate n c) k).simulate_step current dt
        = BatteryPack.mk (List.replicate n c') k' ∧
      c'.soh ≤ c.soh ∧ 60 ≤ c'.soh := by
  rw [simulate_step_def]
  simp only [List.map_replicate]
  set c1 := if current > 0 then c.discharge current dt
    else if current < 0 then c.charge (-current) dt else c with hc1
  have hsoh1 : c1.soh = c.soh := by rw [hc1]; exact soh_stepCell c current dt
  by_cases hcond : (∀ cell ∈ List.replicate n c1, cell.soc = 100) ∨
      (∀ cell ∈ List.replicate n c1, cell.soc = 0)
  · rw [if_pos hcond]
    refine ⟨_, k + 1, rfl, ?_, soh_degrade_lb _ _⟩
    calc (c1.degrade_health (k + 1)).soh
        ≤ c1.soh := soh_degrade_le _ _ (by rw [hsoh1]; exact hsoh)
      _ = c.soh := hsoh1
  · rw [if_neg hcond]
    exact ⟨_, k, rfl, le_of_eq hsoh1, by rw [hsoh1]; exact hsoh⟩

/-- Iterating `simulate_step` keeps a replicated pack replicated, with SOH at
or above 60 whenever it started there. -/
theorem runSteps_replicate_soh (steps : List (ℚ × ℚ)) :
    ∀ (n k : ℕ) (c : BatteryCell), 60 ≤ c.soh →
    ∃ c' k', (BatteryPack.mk (List.replicate n c) k).runSteps steps
        = BatteryPack.mk (List.replicate n c') k' ∧ 60 ≤ c'.soh := by
  induction steps with
  | nil => intro n k c h; exact ⟨c, k, rfl, h⟩
  | cons s rest ih =>
    intro n k c h
    obtain ⟨c1, k1, heq, _, h1⟩ := step_replicate_soh n k c s.1 s.2 h
    obtain ⟨c', k', heq', h'⟩ := ih n k1 c1 h1
    refine ⟨c', k', ?_, h'⟩
    have hcons : (BatteryPack.mk (List.replicate n c) k).runSteps (s :: rest)
        = ((BatteryPack.mk (List.replicate n c) k).simulate_step
            s.1 s.2).runSteps rest := rfl
    rw [hcons, heq, heq']

/-- Claim C8: in a constructed pack, under any sequence of `simulate_step`s,
each cell's SOH never increases from one step to the next (position `i`
observed through `List.get?`). -/
theorem C8_soh_nonincreasing (n : ℕ) (cap v : ℚ) (steps : List (ℚ × ℚ))
    (s : ℚ × ℚ) (i : ℕ) (x y : BatteryCell)
    (hx : (((BatteryPack.init n cap v).runSteps (steps ++ [s])).cells).get? i
        = some x)
    (hy : (((BatteryPack.init n cap v).runSteps steps).cells).get? i = some y) :
    x.soh ≤ y.soh := by
  have hinitmk : BatteryPack.init n cap v
      = BatteryPack.mk (List.replicate n (BatteryCell.init cap v 100 100 25)) 0 :=
    rfl
  obtain ⟨c, k, heq, hc⟩ := runSteps_replicate_soh steps n 0
    (BatteryCell.init cap v 100 100 25) (by norm_num [BatteryCell.init])
  obtain ⟨c', k', heq', hle, _⟩ := step_replicate_soh n k c s.1 s.2 hc
  have happ : (BatteryPack.init n cap v).runSteps (steps ++ [s])
      = ((BatteryPack.init n cap v).runSteps steps).simulate_step s.1 s.2 := by
    unfold BatteryPack.runSteps
    rw [List.foldl_append]
    rfl
  rw [happ, hinitmk, heq, heq'] at hx
  rw [hinitmk, heq] at hy
  have hxmem : x ∈ List.replicate n c' := List.get?_mem hx
  have hymem : y ∈ List.replicate n c := List.get?_mem hy
  rw [List.eq_of_mem_replicate hxmem, List.eq_of_mem_replicate hymem]
  exact hle

/-- Concrete instance of claim C8: one idle step on a fresh one-cell pack
takes the cell's SOH from 100 down to 99.99. -/
theorem C8_soh_nonincreasing_witness : (9999/100 : ℚ) ≤ 100 :=
  C8_soh_nonincreasing 1 (5/2) (37/10) [] (0, 10) 0
    ⟨5/2, 37/10, 100, 9999/100, 25, 37/10, 1/10, 500, 25⟩
    (BatteryCell.init (5/2) (37/10) 100 100 25)
    (by norm_num [BatteryPack.runSteps, BatteryPack.init, BatteryPack.simulate_step,
      BatteryCell.init, BatteryCell.degrade_health, List.replicate, List.get?])
    (by norm_num [BatteryPack.runSteps, BatteryPack.init, BatteryCell.init,
      List.replicate, List.get?])

/-- Claim C9: all cells of a constructed pack are pairwise identical after any
sequence of `simulate_step`s. -/
theorem C9_cells_identical (n : ℕ) (cap v : ℚ) (steps : List (ℚ × ℚ))
    (c1 c2 : BatteryCell)
    (h1 : c1 ∈ ((BatteryPack.init n cap v).runSteps steps).cells)
    (h2 : c2 ∈ ((BatteryPack.init n cap v).runSteps steps).cells) :
    c1 = c2 := by
  have hinitmk : BatteryPack.init n cap v
      = BatteryPack.mk (List.replicate n (BatteryCell.init cap v 100 100 25)) 0 :=
    rfl
  obtain ⟨c, k, heq, _⟩ := runSteps_replicate_soh steps n 0
    (BatteryCell.init cap v 100 100 25) (by norm_num [BatteryCell.init])
  rw [hinitmk, heq] at h1 h2
  rw [List.eq_of_mem_replicate h1, List.eq_of_mem_replicate h2]

/-- Concrete instance of claim C9: both cells of a discharged two-cell pack
carry the identical state. -/
theorem C9_cells_identical_witness :
    (⟨5/2, 37/10, 899/9, 100, 2500099/100000, 33263/9000, 1/10, 500, 25⟩ :
        BatteryCell)
      = ⟨5/2, 37/10, 899/9, 100, 2500099/100000, 33263/9000, 1/10, 500, 25⟩ :=
  C9_cells_identical 2 (5/2) (37/10) [(1, 10)] _ _
    (by norm_num [BatteryPack.runSteps, BatteryPack.init, BatteryPack.simulate_step,
      BatteryCell.init, BatteryCell.discharge, BatteryCell.generate_heat,
      BatteryCell.cool_down, BatteryCell.update_voltage, List.replicate,
      max_def, min_def])
    (by norm_num [BatteryPack.runSteps, BatteryPack.init, BatteryPack.simulate_step,
      BatteryCell.init, BatteryCell.discharge, BatteryCell.generate_heat,
      BatteryCell.cool_down, BatteryCell.update_voltage, List.replicate,
      max_def, min_def])

/-- Claim C10: an idle step (`current = 0`) on a pack whose cells all sit at
SOC 100 increments `cycles` by one and lowers every cell's SOH by
`0.01 * (cycles + 1)`, clamped at the floor of 60: cycle detection and
degradation run even with zero current. -/
theorem C10_idle_step_cycle_and_degrade (p : BatteryPack) (dt : ℚ)
    (h : ∀ c ∈ p.cells, c.soc = 100) :
    (p.simulate_step 0 dt).cycles = p.cycles + 1 ∧
    (p.simulate_step 0 dt).cells
      = p.cells.map (fun c =>
          { c with soh := max (c.soh - (1/100) * ((p.cycles : ℚ) + 1)) 60 }) := by
  have hid : p.cells.map (fun cell =>
      if (0:ℚ) > 0 then cell.discharge 0 dt
      else if (0:ℚ) < 0 then cell.charge (-0) dt else cell) = p.cells := by
    simp
  rw [simulate_step_def, hid, if_pos (Or.inl h)]
  refine ⟨rfl, ?_⟩
  simp only [degrade_health_eq_max, Nat.cast_add, Nat.cast_one]

/-- Concrete instance of claim C10: a fresh 4-cell pack stepped with zero
current reaches one cycle and SOH 99.99 in every cell. -/
theorem C10_idle_step_cycle_and_degrade_witness :
    ((BatteryPack.init 4 (5/2) (37/10)).simulate_step 0 10).cycles
      = (BatteryPack.init 4 (5/2) (37/10)).cycles + 1 ∧
    ((BatteryPack.init 4 (5/2) (37/10)).simulate_step 0 10).cells
      = (BatteryPack.init 4 (5/2) (37/10)).cells.map (fun c =>
          { c with soh := (max
              (c.soh - (1/100) * (((BatteryPack.init 4 (5/2) (37/10)).cycles : ℚ)
                + 1)) 60) }) :=
  C10_idle_step_cycle_and_degrade (BatteryPack.init 4 (5/2) (37/10)) 10
    (by norm_num [BatteryPack.init, BatteryCell.init, List.replicate])

end BMS
